import Mathlib

/-!
Verification of the persistence and validation layer of CejFIT
(src/CejFIT_Fv.py): a workout-logging application over a three-table
SQLite schema (exercises → sessions → sets).

The Python source is shallowly embedded:
* SQLite tables become Lean lists of row structures; the store state also
  carries the next AUTOINCREMENT id for each table.
* Each `DatabaseManager` method becomes a Lean function on the store state.
  Methods that can raise return an `Except` value paired with the resulting
  committed state (the Python methods call `conn.commit()` themselves, so a
  statement that raises leaves the previously committed state in place).
* SQLite TEXT comparison (used for `MAX(date)` and `ORDER BY date`) is
  byte-lexicographic; dates are modelled as Lean `String`s compared with the
  lexicographic `LinearOrder String`.
* Python `float` values are modelled as rationals (`ℚ`); no claim depends on
  binary rounding, NaN or infinity.  The numeric-literal parsers below cover
  the sign/digits/fraction/exponent grammar of Python `float()` and the
  sign/digits grammar of `int()` (underscores and the non-finite literals
  `inf`/`nan` are outside the rational model).
-/

namespace CejFIT

/-- The characters stripped by Python `str.strip()` (ASCII whitespace:
space, tab, newline, carriage return, vertical tab, form feed). -/
def isPyWs (c : Char) : Bool :=
  c == ' ' || c == '\t' || c == '\n' || c == '\r' ||
    c == Char.ofNat 11 || c == Char.ofNat 12

/-- Python `str.strip()` on a character list: drop whitespace from both ends. -/
def pyStripList (l : List Char) : List Char :=
  ((l.dropWhile isPyWs).reverse.dropWhile isPyWs).reverse

/-- Python `str.strip()`. -/
def pyStrip (s : String) : String :=
  ⟨pyStripList s.data⟩

/-- Value of a run of decimal digits. -/
def digitsVal (l : List Char) : Nat :=
  l.foldl (fun acc c => acc * 10 + (c.toNat - '0'.toNat)) 0

/-- `some` of the value of a non-empty all-digit run, else `none`. -/
def parseUDigits (l : List Char) : Option Nat :=
  if l ≠ [] ∧ l.all Char.isDigit then some (digitsVal l) else none

/-- Python `int(s)` on a string: strip whitespace, optional sign, digits. -/
def pyIntOfStr (s : String) : Option Int :=
  match pyStripList s.data with
  | '+' :: rest => (parseUDigits rest).map Int.ofNat
  | '-' :: rest => (parseUDigits rest).map (fun n => -(Int.ofNat n))
  | l => (parseUDigits l).map Int.ofNat

/-- A Python `float` value, modelled as an exact unnormalized fraction
`num / den` (the parser only produces positive powers of ten for `den`).
Rationals with proof-carrying normalization do not reduce in the kernel, so
the fraction is kept raw and `PyFloat.val` interprets it in `ℚ`. -/
structure PyFloat where
  num : Int
  den : Nat
deriving DecidableEq, Repr

/-- The rational value of a modelled Python float. -/
def PyFloat.val (q : PyFloat) : ℚ :=
  (q.num : ℚ) / (q.den : ℚ)

/-- The mantissa of a Python float literal: `digits`, `digits.digits`,
`digits.` or `.digits` (at least one digit overall), as a fraction. -/
def parseMantissa (l : List Char) : Option PyFloat :=
  match l.splitOn '.' with
  | [ds] => (parseUDigits ds).map (fun n => ⟨Int.ofNat n, 1⟩)
  | [ip, fp] =>
      if (ip ≠ [] ∨ fp ≠ []) ∧ ip.all Char.isDigit ∧ fp.all Char.isDigit then
        some ⟨Int.ofNat (digitsVal ip * 10 ^ fp.length + digitsVal fp),
              10 ^ fp.length⟩
      else none
  | _ => none

/-- A signed exponent: optional sign then non-empty digits. -/
def parseExp (l : List Char) : Option Int :=
  match l with
  | '+' :: rest => (parseUDigits rest).map Int.ofNat
  | '-' :: rest => (parseUDigits rest).map (fun n => -(Int.ofNat n))
  | _ => (parseUDigits l).map Int.ofNat

/-- Scale a fraction by `10 ^ k` for a signed `k`. -/
def PyFloat.scale10 (q : PyFloat) (k : Int) : PyFloat :=
  match k with
  | .ofNat e => ⟨q.num * (10 : Int) ^ e, q.den⟩
  | .negSucc e => ⟨q.num, q.den * 10 ^ (e + 1)⟩

/-- Negate a fraction. -/
def PyFloat.neg (q : PyFloat) : PyFloat :=
  ⟨-q.num, q.den⟩

/-- Strip an optional leading sign; `true` means the value is negated. -/
def splitSign : List Char → Bool × List Char
  | '+' :: rest => (false, rest)
  | '-' :: rest => (true, rest)
  | l => (false, l)

/-- Apply an optional negation. -/
def applySign (negSign : Bool) (q : PyFloat) : PyFloat :=
  if negSign then q.neg else q

/-- The unsigned part of a float literal: mantissa with an optional
`e`-exponent (the input is already lowercased). -/
def parseUnsignedFloat (body : List Char) : Option PyFloat :=
  match body.splitOn 'e' with
  | [m] => parseMantissa m
  | [m, e] =>
      match parseMantissa m, parseExp e with
      | some q, some k => some (q.scale10 k)
      | _, _ => none
  | _ => none

/-- Python `float(s)` on a string: strip whitespace, optional sign,
mantissa, optional `e`/`E` exponent. -/
def pyFloatOfStr (s : String) : Option PyFloat :=
  let sb := splitSign (pyStripList s.data)
  (parseUnsignedFloat (sb.2.map Char.toLower)).map (applySign sb.1)

/-- The validation failures raised by the validator functions, one
constructor per distinct `ValueError` message in the source. -/
inductive VErr where
  /-- `ValueError('Exercise name cannot be empty.')` -/
  | emptyName
  /-- `ValueError('Exercise name too long.')` -/
  | nameTooLong
  /-- `ValueError('Weight must be a number and reps an integer.')` -/
  | invalidNumeric
  /-- `ValueError('Invalid weight/reps.')` -/
  | invalidRange
deriving DecidableEq, Repr

/-- `validate_exercise_name` (src/CejFIT_Fv.py:175-180): empty or
whitespace-only name fails, trimmed length over 150 fails, otherwise the
trimmed name is returned. -/
def validate_exercise_name (name : String) : Except VErr String :=
  if name = "" ∨ pyStrip name = "" then .error .emptyName
  else if (pyStrip name).data.length > 150 then .error .nameTooLong
  else .ok (pyStrip name)

/-- Decidable equality for `Except` results (used to evaluate the model on
concrete inputs). -/
instance {ε α : Type} [DecidableEq ε] [DecidableEq α] :
    DecidableEq (Except ε α) := fun x y =>
  match x, y with
  | .ok a, .ok b =>
      if h : a = b then .isTrue (by rw [h]) else .isFalse (by simp [h])
  | .error a, .error b =>
      if h : a = b then .isTrue (by rw [h]) else .isFalse (by simp [h])
  | .ok _, .error _ => .isFalse (by simp)
  | .error _, .ok _ => .isFalse (by simp)

/-- `validate_weight_reps` (src/CejFIT_Fv.py:183-191): parse weight as float
and reps as int (either failure → `invalidNumeric`), then reject
`weight < 0` or `reps ≤ 0` as `invalidRange`.  The sign test `weight < 0`
is rendered on the fraction as `num < 0`, which agrees with the value-level
test since the parser only produces positive denominators (proved in
`pyFloatOfStr_den_pos` and `PyFloat.num_neg_iff_val_neg`). -/
def validate_weight_reps (w r : String) : Except VErr (PyFloat × Int) :=
  match pyFloatOfStr w, pyIntOfStr r with
  | some weight, some reps =>
      if weight.num < 0 ∨ reps ≤ 0 then .error .invalidRange
      else .ok (weight, reps)
  | _, _ => .error .invalidNumeric

example : pyIntOfStr "  42 " = some 42 := by decide
example : pyIntOfStr "4.2" = none := by decide
example : pyFloatOfStr "-3.5" = some ⟨-35, 10⟩ := by decide
example : pyFloatOfStr "2e2" = some ⟨200, 1⟩ := by decide
example : pyFloatOfStr "" = none := by decide
example : validate_weight_reps "1.5" "3" = .ok (⟨15, 10⟩, 3) := by decide
example : validate_weight_reps "-1" "3" = .error .invalidRange := by decide
example : validate_weight_reps "x" "3" = .error .invalidNumeric := by decide
example : validate_exercise_name "  Bench " = .ok "Bench" := by decide

/-- A row of the `exercises` table (src/CejFIT_Fv.py:30-39). -/
structure ExerciseRow where
  id : Nat
  name : String
  body_part : String
  equipment : String
  notes : String
  subgroup : String
deriving DecidableEq, Repr

/-- A row of the `sessions` table (src/CejFIT_Fv.py:40-48). -/
structure SessionRow where
  id : Nat
  exercise_id : Nat
  date : String
  notes : String
deriving DecidableEq, Repr

/-- A row of the `sets` table (src/CejFIT_Fv.py:49-60). -/
structure SetRow where
  id : Nat
  session_id : Nat
  set_index : Int
  weight : PyFloat
  reps : Int
  rir : Option Int
  unit : String
deriving DecidableEq, Repr

/-- The committed state of the SQLite database: the three tables plus the
next AUTOINCREMENT id of each. -/
structure Store where
  exercises : List ExerciseRow
  sessions : List SessionRow
  sets : List SetRow
  nextExerciseId : Nat
  nextSessionId : Nat
  nextSetId : Nat
deriving DecidableEq, Repr

/-- Store-layer failures, one constructor per distinct Python exception. -/
inductive DbError where
  /-- `ValueError('Exercise already exists.')`: the distinguishable
  duplicate-name error raised by `add_exercise` (src/CejFIT_Fv.py:98-99). -/
  | duplicateName
  /-- A raw `sqlite3.IntegrityError` propagating uncaught (unique-constraint
  violation in `update_exercise`, or a foreign-key violation with
  `PRAGMA foreign_keys = ON`). -/
  | integrityError
  /-- `ValueError` raised by the `int(rir)` coercion inside `add_set`. -/
  | invalidInt
deriving DecidableEq, Repr

/-- The `rir` argument of `add_set` as passed by the callers: `None`, a
string from the UI, or an `int` already coerced. -/
inductive RirArg where
  | pynone
  | pystr (s : String)
  | pyint (n : Int)
deriving DecidableEq, Repr

/-- The `rir` parameter expression of `add_set` (src/CejFIT_Fv.py:134):
`int(rir) if rir is not None and str(rir).strip() != '' else None`.
`str(n)` of an int is its decimal representation `Int.repr n`. -/
def coerce_rir (rir : RirArg) : Except DbError (Option Int) :=
  match rir with
  | .pynone => .ok none
  | .pyint n => if pyStrip (Int.repr n) = "" then .ok none else .ok (some n)
  | .pystr s =>
      if pyStrip s = "" then .ok none
      else
        match pyIntOfStr s with
        | some n => .ok (some n)
        | none => .error .invalidInt

/-- `DatabaseManager.add_exercise` (src/CejFIT_Fv.py:91-99): insert a row
with all fields stripped; a UNIQUE-constraint collision on `name` (BINARY
collation, hence case-sensitive) is caught and re-raised as
`ValueError('Exercise already exists.')`, leaving the table unchanged. -/
def add_exercise (st : Store) (name body_part equipment notes subgroup : String) :
    Except DbError Nat × Store :=
  if st.exercises.any (fun e => e.name == pyStrip name) then
    (.error .duplicateName, st)
  else
    (.ok st.nextExerciseId,
     { st with
        exercises := st.exercises ++
          [⟨st.nextExerciseId, pyStrip name, pyStrip body_part,
            pyStrip equipment, pyStrip notes, pyStrip subgroup⟩],
        nextExerciseId := st.nextExerciseId + 1 })

/-- `DatabaseManager.update_exercise` (src/CejFIT_Fv.py:111-115): full
replace of the mutable fields of the row with the given id.  If no row has
the id, the UPDATE matches nothing (no error).  If the new name collides
with a *different* row's name, the UNIQUE constraint raises a raw
`sqlite3.IntegrityError` — there is no try/except here, so it is *not*
converted to the duplicate-name `ValueError`. -/
def update_exercise (st : Store) (id_ : Nat)
    (name body_part equipment notes subgroup : String) :
    Except DbError Unit × Store :=
  if st.exercises.any (fun e => e.id == id_) then
    if st.exercises.any (fun e => e.id != id_ && e.name == pyStrip name) then
      (.error .integrityError, st)
    else
      (.ok (),
       { st with
          exercises := st.exercises.map (fun e =>
            if e.id == id_ then
              { e with
                  name := pyStrip name, body_part := pyStrip body_part,
                  equipment := pyStrip equipment, notes := pyStrip notes,
                  subgroup := pyStrip subgroup }
            else e) })
  else (.ok (), st)

/-- `DatabaseManager.delete_exercise` (src/CejFIT_Fv.py:117-120) under
`PRAGMA foreign_keys = ON`: deleting the exercise row cascades to its
sessions (`ON DELETE CASCADE`, src/CejFIT_Fv.py:46) and, through them, to
their sets (src/CejFIT_Fv.py:58). -/
def delete_exercise (st : Store) (id_ : Nat) : Store :=
  if st.exercises.any (fun e => e.id == id_) then
    let deadSessions :=
      (st.sessions.filter (fun s => s.exercise_id == id_)).map SessionRow.id
    { st with
        exercises := st.exercises.filter (fun e => e.id != id_),
        sessions := st.sessions.filter (fun s => s.exercise_id != id_),
        sets := st.sets.filter (fun t => !(deadSessions.contains t.session_id)) }
  else st

/-- `DatabaseManager.add_session` (src/CejFIT_Fv.py:122-127): insert a
session row and commit.  With `PRAGMA foreign_keys = ON`, a nonexistent
`exercise_id` raises an integrity error. -/
def add_session (st : Store) (exercise_id : Nat) (date_str notes : String) :
    Except DbError Nat × Store :=
  if st.exercises.any (fun e => e.id == exercise_id) then
    (.ok st.nextSessionId,
     { st with
        sessions := st.sessions ++
          [⟨st.nextSessionId, exercise_id, date_str, pyStrip notes⟩],
        nextSessionId := st.nextSessionId + 1 })
  else (.error .integrityError, st)

/-- `DatabaseManager.add_set` (src/CejFIT_Fv.py:129-136): coerce the `rir`
argument (this happens while building the parameter tuple, before the
INSERT executes), insert a set row and commit.  A nonexistent `session_id`
raises an integrity error.  `weight` and `reps` reach this method already
numeric (`float(weight)` / `int(reps)` are the identity on them). -/
def add_set (st : Store) (session_id : Nat) (set_index : Int)
    (weight : PyFloat) (reps : Int) (rir : RirArg) (unit : String) :
    Except DbError Nat × Store :=
  match coerce_rir rir with
  | .error e => (.error e, st)
  | .ok rv =>
      if st.sessions.any (fun s => s.id == session_id) then
        (.ok st.nextSetId,
         { st with
            sets := st.sets ++
              [⟨st.nextSetId, session_id, set_index, weight, reps, rv, unit⟩],
            nextSetId := st.nextSetId + 1 })
      else (.error .integrityError, st)

/-- `DatabaseManager.delete_session` (src/CejFIT_Fv.py:149-152): delete the
session row; `ON DELETE CASCADE` removes its sets. -/
def delete_session (st : Store) (session_id : Nat) : Store :=
  if st.sessions.any (fun s => s.id == session_id) then
    { st with
        sessions := st.sessions.filter (fun s => s.id != session_id),
        sets := st.sets.filter (fun t => t.session_id != session_id) }
  else st

/-- SQLite `COLLATE NOCASE`: ASCII letters compared case-insensitively,
modelled by lowercasing before the byte-lexicographic comparison. -/
def lowerStr (s : String) : String :=
  s.map Char.toLower

/-- `SELECT MAX(date) ...`: the maximum of a list of TEXT dates under
byte-lexicographic comparison, `none` (SQL NULL) on the empty list. -/
def maxDate : List String → Option String
  | [] => none
  | d :: rest =>
      match maxDate rest with
      | none => some d
      | some m => some (if m < d then d else m)

/-- The `ORDER BY e.body_part COLLATE NOCASE, e.name COLLATE NOCASE` sort
key of `get_exercises` (src/CejFIT_Fv.py:107). -/
def exKeyLe (a b : ExerciseRow) : Prop :=
  lowerStr a.body_part < lowerStr b.body_part ∨
    (lowerStr a.body_part = lowerStr b.body_part ∧
      lowerStr a.name ≤ lowerStr b.name)

instance : DecidableRel exKeyLe := fun a b =>
  decidable_of_iff
    (lowerStr a.body_part < lowerStr b.body_part ∨
      (lowerStr a.body_part = lowerStr b.body_part ∧
        lowerStr a.name ≤ lowerStr b.name)) Iff.rfl

instance : IsTotal ExerciseRow exKeyLe where
  total a b := by
    rcases lt_trichotomy (lowerStr a.body_part) (lowerStr b.body_part) with h | h | h
    · exact Or.inl (Or.inl h)
    · rcases le_total (lowerStr a.name) (lowerStr b.name) with h2 | h2
      · exact Or.inl (Or.inr ⟨h, h2⟩)
      · exact Or.inr (Or.inr ⟨h.symm, h2⟩)
    · exact Or.inr (Or.inl h)

instance : IsTrans ExerciseRow exKeyLe where
  trans a b c hab hbc := by
    rcases hab with h1 | ⟨h1, h1n⟩ <;> rcases hbc with h2 | ⟨h2, h2n⟩
    · exact Or.inl (h1.trans h2)
    · exact Or.inl (h2 ▸ h1)
    · exact Or.inl (h1 ▸ h2)
    · exact Or.inr ⟨h1.trans h2, h1n.trans h2n⟩

/-- `DatabaseManager.get_exercises` (src/CejFIT_Fv.py:101-109): all
exercise rows ordered by body part then name, both `COLLATE NOCASE`, each
paired with the correlated subquery
`(SELECT MAX(date) FROM sessions s WHERE s.exercise_id = e.id)`. -/
def get_exercises (st : Store) : List (ExerciseRow × Option String) :=
  (List.insertionSort exKeyLe st.exercises).map (fun e =>
    (e, maxDate ((st.sessions.filter
      (fun s => s.exercise_id == e.id)).map SessionRow.date)))

/-- `ORDER BY date DESC` on sessions (src/CejFIT_Fv.py:140). -/
def sessionDateGe (a b : SessionRow) : Prop :=
  b.date ≤ a.date

instance : DecidableRel sessionDateGe := fun a b =>
  decidable_of_iff (b.date ≤ a.date) Iff.rfl

instance : IsTotal SessionRow sessionDateGe where
  total a b := (le_total a.date b.date).symm

instance : IsTrans SessionRow sessionDateGe where
  trans _ _ _ hab hbc := hbc.trans hab

/-- `DatabaseManager.get_sessions_for_exercise` (src/CejFIT_Fv.py:138-141):
`SELECT id, date, notes FROM sessions WHERE exercise_id=? ORDER BY date
DESC`. -/
def get_sessions_for_exercise (st : Store) (exercise_id : Nat) :
    List (Nat × String × String) :=
  (List.insertionSort sessionDateGe
      (st.sessions.filter (fun s => s.exercise_id == exercise_id))).map
    (fun s => (s.id, s.date, s.notes))

/-- `ORDER BY set_index` on sets (src/CejFIT_Fv.py:145). -/
def setIdxLe (a b : SetRow) : Prop :=
  a.set_index ≤ b.set_index

instance : DecidableRel setIdxLe := fun a b =>
  decidable_of_iff (a.set_index ≤ b.set_index) Iff.rfl

instance : IsTotal SetRow setIdxLe where
  total a b := le_total a.set_index b.set_index

instance : IsTrans SetRow setIdxLe where
  trans _ _ _ hab hbc := hab.trans hbc

/-- `DatabaseManager.get_sets_for_session` (src/CejFIT_Fv.py:143-147):
`SELECT set_index, weight, reps, rir, unit FROM sets WHERE session_id=?
ORDER BY set_index`. -/
def get_sets_for_session (st : Store) (session_id : Nat) :
    List (Int × PyFloat × Int × Option Int × String) :=
  (List.insertionSort setIdxLe
      (st.sets.filter (fun t => t.session_id == session_id))).map
    (fun t => (t.set_index, t.weight, t.reps, t.rir, t.unit))

/-- One row of the `sets JOIN sessions` query of
`get_last_set_for_exercise`. -/
structure JoinRow where
  date : String
  set_index : Int
  weight : PyFloat
  reps : Int
  rir : Option Int
  unit : String
deriving DecidableEq, Repr

/-- The join `sets JOIN sessions ON sets.session_id = sessions.id WHERE
sessions.exercise_id = ?` (src/CejFIT_Fv.py:156-161). -/
def lastJoin (st : Store) (exercise_id : Nat) : List JoinRow :=
  st.sets.flatMap (fun t =>
    (st.sessions.filter (fun s =>
        s.id == t.session_id && s.exercise_id == exercise_id)).map
      (fun s => ⟨s.date, t.set_index, t.weight, t.reps, t.rir, t.unit⟩))

/-- `b` comes strictly after `a` in `ORDER BY date DESC, set_index DESC`
(so the query would return `b` in preference to `a`). -/
def rowAfter (a b : JoinRow) : Bool :=
  decide (a.date < b.date) ||
    (decide (a.date = b.date) && decide (a.set_index < b.set_index))

/-- `ORDER BY sessions.date DESC, sets.set_index DESC LIMIT 1`: the row
maximal for the lexicographic (date, set_index) order. -/
def pickLast : List JoinRow → Option JoinRow
  | [] => none
  | r :: rest => some (rest.foldl (fun b x => if rowAfter b x then x else b) r)

/-- `DatabaseManager.get_last_set_for_exercise` (src/CejFIT_Fv.py:154-163):
the first row of the ordered join, or the literal 4-tuple
`(None, None, None, None)` when the query returns no row
(`return r if r else (None, None, None, None)`).  The Python tuple of four
possibly-`None` components is modelled as a tuple of four `Option`s. -/
def get_last_set_for_exercise (st : Store) (exercise_id : Nat) :
    Option PyFloat × Option Int × Option Int × Option String :=
  match pickLast (lastJoin st exercise_id) with
  | none => (none, none, none, none)
  | some r => (some r.weight, some r.reps, r.rir, some r.unit)

/-- One entry of `TrackerApp.set_buffer`: the pending-set dict
`{'idx': ..., 'weight': ..., 'reps': ..., 'rir': ..., 'unit': ...}`
(src/CejFIT_Fv.py:504). -/
structure BufSet where
  idx : Nat
  weight : PyFloat
  reps : Int
  rir : Option Int
  unit : String
deriving DecidableEq, Repr

/-- The data of a pending set apart from its index. -/
def BufSet.payload (b : BufSet) : PyFloat × Int × Option Int × String :=
  (b.weight, b.reps, b.rir, b.unit)

/-- The renumbering loop of `TrackerApp.remove_set`
(src/CejFIT_Fv.py:516-520): `enumerate(..., start=1)` assigns consecutive
indices from `n` to the surviving rows, keeping their data. -/
def reindexFrom (n : Nat) : List BufSet → List BufSet
  | [] => []
  | b :: rest => { b with idx := n } :: reindexFrom (n + 1) rest

/-- `TrackerApp.remove_set` (src/CejFIT_Fv.py:509-521) with one selected
row, at 0-based position `p` of the pending buffer: the row is deleted from
the tree and the remaining rows are renumbered contiguously from 1. -/
def remove_set (buf : List BufSet) (p : Nat) : List BufSet :=
  reindexFrom 1 (buf.eraseIdx p)

/-- The buffered `rir` value as it is passed to `add_set` by
`save_session` (`s.get('rir')`): an int or `None`. -/
def rirArgOf : Option Int → RirArg
  | none => .pynone
  | some n => .pyint n

/-- The outcome of `TrackerApp.save_session`. -/
inductive SaveResult where
  /-- all inserts succeeded; the success dialog is shown -/
  | saved
  /-- the `if not self.set_buffer` guard returned early -/
  | emptyBuffer
  /-- an injected storage-layer failure (e.g. disk I/O) was raised by the
  `k`-th INSERT statement of the sequence (`k = 0` is the session insert,
  `k ≥ 1` the `k`-th set insert); the except-handler shows the error -/
  | failed (k : Nat)
  /-- a modelled store error (integrity violation, bad rir) was raised -/
  | dbError (e : DbError)
deriving DecidableEq, Repr

/-- The `for s in self.set_buffer: self.db.add_set(...)` loop of
`TrackerApp.save_session` (src/CejFIT_Fv.py:543-544).  Each `add_set` call
commits on its own (src/CejFIT_Fv.py:135), so everything inserted before a
failure stays committed; the first raised exception aborts the rest of the
loop and propagates to the except-handler.  `failAt` is a fault oracle
naming the INSERT (counted from the session insert = 0) at which the
storage layer raises. -/
def save_sets (st : Store) (sid : Nat) (buf : List BufSet) (k : Nat)
    (failAt : Option Nat) : SaveResult × Store :=
  match buf with
  | [] => (.saved, st)
  | b :: rest =>
      if failAt = some k then (.failed k, st)
      else
        match add_set st sid (Int.ofNat b.idx) b.weight b.reps
            (rirArgOf b.rir) b.unit with
        | (.ok _, st') => save_sets st' sid rest (k + 1) failAt
        | (.error e, st') => (.dbError e, st')

/-- `TrackerApp.save_session` (src/CejFIT_Fv.py:523-552), from the point
where an exercise is selected and the date string validated: guard against
an empty pending buffer, insert the session (which commits,
src/CejFIT_Fv.py:126), then insert each buffered set (each commits).  Any
exception is caught by the surrounding try/except and reported; no
compensation or rollback of already-committed inserts happens. -/
def save_session (st : Store) (exercise_id : Nat) (date_str notes : String)
    (buf : List BufSet) (failAt : Option Nat) : SaveResult × Store :=
  if buf.isEmpty then (.emptyBuffer, st)
  else if failAt = some 0 then (.failed 0, st)
  else
    match add_session st exercise_id date_str notes with
    | (.ok sid, st1) => save_sets st1 sid buf 1 failAt
    | (.error e, st1) => (.dbError e, st1)

/-- Referential integrity of a store state: every session references an
existing exercise and every set an existing session (enforced by the
FOREIGN KEY constraints with `PRAGMA foreign_keys = ON`). -/
def wf (st : Store) : Bool :=
  st.sessions.all (fun s => st.exercises.any (fun e => e.id == s.exercise_id)) &&
    st.sets.all (fun t => st.sessions.any (fun s => s.id == t.session_id))

theorem wf_iff (st : Store) :
    wf st = true ↔
      ((∀ s ∈ st.sessions, ∃ e ∈ st.exercises, e.id = s.exercise_id) ∧
       (∀ t ∈ st.sets, ∃ s ∈ st.sessions, s.id = t.session_id)) := by
  simp only [wf, Bool.and_eq_true, List.all_eq_true, List.any_eq_true,
    beq_iff_eq]

/-! ## Validator properties (claims C3, C4) -/

theorem parseMantissa_den_pos {l : List Char} {q : PyFloat}
    (h : parseMantissa l = some q) : 0 < q.den := by
  unfold parseMantissa at h
  split at h
  · obtain ⟨n, -, rfl⟩ := Option.map_eq_some'.mp h
    exact Nat.one_pos
  · split at h
    · cases h
      exact pow_pos (by norm_num) _
    · exact absurd h (by simp)
  · exact absurd h (by simp)

theorem scale10_den_pos {q : PyFloat} {k : Int} (h : 0 < q.den) :
    0 < (q.scale10 k).den := by
  cases k with
  | ofNat e => simpa [PyFloat.scale10] using h
  | negSucc e =>
      simp only [PyFloat.scale10]
      exact Nat.mul_pos h (pow_pos (by norm_num) _)

theorem applySign_den (b : Bool) (q : PyFloat) : (applySign b q).den = q.den := by
  cases b <;> simp [applySign, PyFloat.neg]

theorem parseUnsignedFloat_den_pos {l : List Char} {q : PyFloat}
    (h : parseUnsignedFloat l = some q) : 0 < q.den := by
  unfold parseUnsignedFloat at h
  split at h
  · exact parseMantissa_den_pos h
  · split at h
    · rename_i hm hk
      cases h
      exact scale10_den_pos (parseMantissa_den_pos hm)
    · exact absurd h (by simp)
  · exact absurd h (by simp)

/-- Every float the parser produces has a positive denominator, so its
sign is the sign of its numerator. -/
theorem pyFloatOfStr_den_pos {s : String} {q : PyFloat}
    (h : pyFloatOfStr s = some q) : 0 < q.den := by
  unfold pyFloatOfStr at h
  obtain ⟨q', hq', rfl⟩ := Option.map_eq_some'.mp h
  rw [applySign_den]
  exact parseUnsignedFloat_den_pos hq'

/-- For a positive denominator, the numerator-sign test used in the model
agrees with the value-level test `weight < 0` of the source. -/
theorem PyFloat.num_neg_iff_val_neg {q : PyFloat} (h : 0 < q.den) :
    q.num < 0 ↔ q.val < 0 := by
  have hd : (0 : ℚ) < (q.den : ℚ) := by exact_mod_cast h
  unfold PyFloat.val
  rw [div_neg_iff]
  constructor
  · intro hn
    exact Or.inr ⟨by exact_mod_cast hn, hd⟩
  · rintro (⟨-, hdneg⟩ | ⟨hn, -⟩)
    · exact absurd hdneg (not_lt.mpr hd.le)
    · exact_mod_cast hn

/-- **C3.** `validate_weight_reps` fails with `invalidNumeric` whenever
either input fails to parse (weight as float, reps as int); on parsed
inputs it fails with `invalidRange` exactly when the parsed weight is
negative (the numerator test coincides with the value test, first
conjunct) or reps ≤ 0; and on every valid input (weight ≥ 0, reps ≥ 1) it
returns the parsed pair unchanged.  Being a pure Lean function, it has no
side effects. -/
theorem validate_weight_reps_spec (w r : String) :
    ((pyFloatOfStr w = none ∨ pyIntOfStr r = none) →
        validate_weight_reps w r = .error .invalidNumeric) ∧
    (∀ q n, pyFloatOfStr w = some q → pyIntOfStr r = some n →
        (q.num < 0 ↔ q.val < 0) ∧
        ((q.num < 0 ∨ n ≤ 0) →
            validate_weight_reps w r = .error .invalidRange) ∧
        (0 ≤ q.num → 1 ≤ n → validate_weight_reps w r = .ok (q, n))) := by
  constructor
  · intro h
    unfold validate_weight_reps
    rcases hw : pyFloatOfStr w with _ | q <;>
      rcases hr : pyIntOfStr r with _ | n <;>
        simp_all
  · intro q n hq hn
    refine ⟨PyFloat.num_neg_iff_val_neg (pyFloatOfStr_den_pos hq), ?_, ?_⟩
    · intro hcond
      unfold validate_weight_reps
      rw [hq, hn]
      simp only [if_pos hcond]
    · intro h1 h2
      unfold validate_weight_reps
      rw [hq, hn]
      simp only [if_neg (by omega : ¬(q.num < 0 ∨ n ≤ 0))]

/-- Witness for C3 at concrete inputs. -/
theorem validate_weight_reps_spec_witness :
    validate_weight_reps "1.5" "8" = .ok (⟨15, 10⟩, 8) ∧
    validate_weight_reps "-2" "8" = .error .invalidRange ∧
    validate_weight_reps "abc" "8" = .error .invalidNumeric :=
  ⟨((validate_weight_reps_spec "1.5" "8").2 ⟨15, 10⟩ 8 (by decide)
      (by decide)).2.2 (by decide) (by decide),
   ((validate_weight_reps_spec "-2" "8").2 ⟨-2, 1⟩ 8 (by decide)
      (by decide)).2.1 (Or.inl (by decide)),
   (validate_weight_reps_spec "abc" "8").1 (Or.inl (by decide))⟩

theorem pyStripList_eq_nil_iff {l : List Char} :
    pyStripList l = [] ↔ ∀ c ∈ l, isPyWs c = true := by
  unfold pyStripList
  rw [List.reverse_eq_nil_iff, List.dropWhile_eq_nil_iff]
  constructor
  · intro h c hc
    have hsplit := List.takeWhile_append_dropWhile (p := isPyWs) (l := l)
    rw [← hsplit] at hc
    rcases List.mem_append.mp hc with h1 | h1
    · exact List.mem_takeWhile_imp h1
    · exact h c (List.mem_reverse.mpr h1)
  · intro h c hc
    exact h c (List.dropWhile_subset _ (List.mem_reverse.mp hc))

theorem pyStrip_eq_empty_iff (s : String) :
    pyStrip s = "" ↔ ∀ c ∈ s.data, isPyWs c = true := by
  unfold pyStrip
  rw [String.ext_iff]
  exact pyStripList_eq_nil_iff

theorem pyStrip_empty : pyStrip "" = "" := rfl

/-- **C4 (amended).**  `validate_exercise_name` fails with `emptyName`
exactly on blank / whitespace-only names; it fails with `nameTooLong` when
the *trimmed* name is longer than 150 characters (not the raw name: the
check in the source is `len(name.strip()) > 150`); otherwise it returns
the trimmed name. -/
theorem validate_exercise_name_spec (name : String) :
    (pyStrip name = "" ↔ ∀ c ∈ name.data, isPyWs c = true) ∧
    (pyStrip name = "" →
        validate_exercise_name name = .error .emptyName) ∧
    (pyStrip name ≠ "" → 150 < (pyStrip name).data.length →
        validate_exercise_name name = .error .nameTooLong) ∧
    (pyStrip name ≠ "" → (pyStrip name).data.length ≤ 150 →
        validate_exercise_name name = .ok (pyStrip name)) := by
  have hne : pyStrip name ≠ "" → ¬(name = "" ∨ pyStrip name = "") := by
    rintro h (rfl | h2)
    · exact h pyStrip_empty
    · exact h h2
  refine ⟨pyStrip_eq_empty_iff name, ?_, ?_, ?_⟩
  · intro h
    unfold validate_exercise_name
    rw [if_pos (Or.inr h)]
  · intro h1 h2
    unfold validate_exercise_name
    rw [if_neg (hne h1), if_pos h2]
  · intro h1 h2
    unfold validate_exercise_name
    rw [if_neg (hne h1), if_neg (not_lt.mpr h2)]

/-- Witness for the amended C4 at concrete inputs. -/
theorem validate_exercise_name_spec_witness :
    validate_exercise_name "  Squat " = .ok "Squat" ∧
    validate_exercise_name "   " = .error .emptyName :=
  ⟨(validate_exercise_name_spec "  Squat ").2.2.2 (by decide) (by decide),
   (validate_exercise_name_spec "   ").2.1 (by decide)⟩

set_option maxRecDepth 4000 in
/-- Counterexample to C4 as stated: a 151-character name consisting of 150
letters and one trailing blank is strictly longer than 150 characters, yet
`validate_exercise_name` accepts it (returning the 150-character trimmed
name) instead of failing with `nameTooLong`, because the source measures
the *stripped* name. -/
theorem validate_exercise_name_long_input_accepted :
    (String.mk (List.replicate 150 'a' ++ [' '])).data.length = 151 ∧
    validate_exercise_name (String.mk (List.replicate 150 'a' ++ [' '])) =
      .ok (String.mk (List.replicate 150 'a')) := by
  constructor
  · simp
  · decide

/-! ## Pending-buffer re-indexing (claim C7) -/

theorem reindexFrom_map_idx (l : List BufSet) : ∀ n : Nat,
    (reindexFrom n l).map BufSet.idx = List.range' n l.length := by
  induction l with
  | nil => intro n; rfl
  | cons b rest ih =>
      intro n
      rw [List.length_cons, List.range'_succ]
      simp [reindexFrom, ih]

theorem reindexFrom_map_payload (l : List BufSet) : ∀ n : Nat,
    (reindexFrom n l).map BufSet.payload = l.map BufSet.payload := by
  induction l with
  | nil => intro n; rfl
  | cons b rest ih =>
      intro n
      simp [reindexFrom, ih, BufSet.payload]

/-- **C7.** Removing the set at (0-based) position `p` from a pending
buffer of `N` sets renumbers the remaining sets to exactly the contiguous
indices `1, …, N-1` (`List.range' 1 (N-1)`), and their data keeps the
relative order of the surviving rows (it equals the original buffer with
the `p`-th row erased). -/
theorem remove_set_spec (buf : List BufSet) (p : Nat) (h : p < buf.length) :
    (remove_set buf p).map BufSet.idx = List.range' 1 (buf.length - 1) ∧
    (remove_set buf p).map BufSet.payload =
      (buf.eraseIdx p).map BufSet.payload := by
  unfold remove_set
  refine ⟨?_, reindexFrom_map_payload _ 1⟩
  rw [reindexFrom_map_idx, List.length_eraseIdx_of_lt h]

/-- A concrete pending buffer of two sets. -/
def bufW : List BufSet :=
  [⟨1, ⟨100, 1⟩, 8, some 2, "lbs"⟩, ⟨2, ⟨110, 1⟩, 6, none, "kg"⟩]

/-- Witness for C7: removing the first of two buffered sets. -/
theorem remove_set_spec_witness :
    (remove_set bufW 0).map BufSet.idx = List.range' 1 (bufW.length - 1) ∧
    (remove_set bufW 0).map BufSet.payload =
      (bufW.eraseIdx 0).map BufSet.payload :=
  remove_set_spec bufW 0 (by decide)

/-! ## No-data shape of `get_last_set_for_exercise` (claim C9) -/

/-- **C9.** When the exercise has no sets at all — no session of the
exercise is referenced by any set row, which covers both "no sessions" and
"sessions without sets" — `get_last_set_for_exercise` returns the 4-tuple
`(None, None, None, None)`, not a single absent value: the no-data case is
a tuple of four nulls at the public interface. -/
theorem get_last_set_no_data (st : Store) (eid : Nat)
    (h : ∀ t ∈ st.sets, ∀ s ∈ st.sessions,
        s.id = t.session_id → s.exercise_id ≠ eid) :
    get_last_set_for_exercise st eid = (none, none, none, none) := by
  have hj : lastJoin st eid = [] := by
    unfold lastJoin
    rw [List.flatMap_eq_nil_iff]
    intro t ht
    rw [List.map_eq_nil_iff, List.filter_eq_nil_iff]
    intro s hs hmatch
    rw [Bool.and_eq_true, beq_iff_eq, beq_iff_eq] at hmatch
    exact h t ht s hs hmatch.1 hmatch.2
  unfold get_last_set_for_exercise
  rw [hj]
  rfl

/-- A store with one exercise and one session but no sets. -/
def stW : Store :=
  ⟨[⟨1, "Squat", "Back", "Barbell", "", "Lower Back"⟩],
   [⟨1, 1, "2024-01-10", ""⟩], [], 2, 2, 1⟩

/-- Witness for C9: an exercise whose only session has no sets. -/
theorem get_last_set_no_data_witness :
    get_last_set_for_exercise stW 1 = (none, none, none, none) :=
  get_last_set_no_data stW 1 (by decide)

/-! ## `rir` coercion in `add_set` (claim C10) -/

theorem digitChar_not_ws (n : Nat) : isPyWs (Nat.digitChar n) = false := by
  rcases Nat.lt_or_ge n 16 with h | h
  · interval_cases n <;> decide
  · unfold Nat.digitChar
    rw [if_neg (show ¬n = 0 by omega), if_neg (show ¬n = 1 by omega),
      if_neg (show ¬n = 2 by omega), if_neg (show ¬n = 3 by omega),
      if_neg (show ¬n = 4 by omega), if_neg (show ¬n = 5 by omega),
      if_neg (show ¬n = 6 by omega), if_neg (show ¬n = 7 by omega),
      if_neg (show ¬n = 8 by omega), if_neg (show ¬n = 9 by omega),
      if_neg (show ¬n = 10 by omega), if_neg (show ¬n = 11 by omega),
      if_neg (show ¬n = 12 by omega), if_neg (show ¬n = 13 by omega),
      if_neg (show ¬n = 14 by omega), if_neg (show ¬n = 15 by omega)]
    decide

theorem toDigitsCore_not_ws :
    ∀ (fuel n : Nat) (acc : List Char),
      (∀ c ∈ acc, isPyWs c = false) →
      ∀ c ∈ Nat.toDigitsCore 10 fuel n acc, isPyWs c = false := by
  intro fuel
  induction fuel with
  | zero =>
      intro n acc hacc c hc
      simp only [Nat.toDigitsCore] at hc
      exact hacc c hc
  | succ f ih =>
      intro n acc hacc c hc
      simp only [Nat.toDigitsCore] at hc
      split at hc
      · rcases List.mem_cons.mp hc with rfl | h
        · exact digitChar_not_ws _
        · exact hacc c h
      · refine ih _ _ ?_ c hc
        intro c' hc'
        rcases List.mem_cons.mp hc' with rfl | h
        · exact digitChar_not_ws _
        · exact hacc c' h

theorem toDigitsCore_ne_nil :
    ∀ (fuel n : Nat) (acc : List Char),
      fuel ≠ 0 ∨ acc ≠ [] → Nat.toDigitsCore 10 fuel n acc ≠ [] := by
  intro fuel
  induction fuel with
  | zero =>
      intro n acc h
      simp only [Nat.toDigitsCore]
      exact h.resolve_left (by simp)
  | succ f ih =>
      intro n acc h
      simp only [Nat.toDigitsCore]
      split
      · exact List.cons_ne_nil _ _
      · exact ih _ _ (Or.inr (List.cons_ne_nil _ _))

/-- The decimal representation of an integer never strips to the empty
string (all its characters are digits or a leading minus, none of which is
whitespace), so in `add_set` the `str(rir).strip() != ''` test is always
true for an int argument. -/
theorem pyStrip_intRepr_ne_empty (n : Int) : pyStrip (Int.repr n) ≠ "" := by
  rw [Ne, pyStrip_eq_empty_iff]
  intro hall
  cases n with
  | ofNat m =>
      have hne : Nat.toDigits 10 m ≠ [] :=
        toDigitsCore_ne_nil _ _ _ (Or.inl (Nat.succ_ne_zero m))
      obtain ⟨c, hc⟩ := List.exists_mem_of_ne_nil _ hne
      have hws : isPyWs c = false :=
        toDigitsCore_not_ws _ _ _ (by simp) c hc
      have hmem : c ∈ (Int.repr (Int.ofNat m)).data := hc
      rw [hall c hmem] at hws
      exact Bool.noConfusion hws
  | negSucc m =>
      have h1 : '-' ∈ (Int.repr (Int.negSucc m)).data := by
        show '-' ∈ ("-" ++ Nat.repr (m + 1)).data
        rw [String.data_append]
        exact List.mem_append.mpr (Or.inl (by decide))
      exact absurd (hall '-' h1) (by decide)

/-- **C10.** In `add_set`, an `rir` argument that is `None`, an empty
string or a whitespace-only string is stored as NULL; any other argument
is coerced with `int()` before storage — a non-blank string stores its
parsed integer and fails only if unparseable, and an int argument is
always stored as itself (the `str(rir).strip() != ''` test cannot reject
it).  A blank RIR therefore never fails and never stores an empty-string
value: the stored column is an `Option Int`. -/
theorem add_set_rir_spec (st : Store) (sid : Nat) (idx : Int) (w : PyFloat)
    (reps : Int) (unit : String)
    (hs : st.sessions.any (fun s => s.id == sid) = true) :
    (∀ rir : RirArg,
        (rir = .pynone ∨ ∃ s, rir = .pystr s ∧ pyStrip s = "") →
        add_set st sid idx w reps rir unit =
          (.ok st.nextSetId,
           { st with
              sets := st.sets ++
                [⟨st.nextSetId, sid, idx, w, reps, none, unit⟩],
              nextSetId := st.nextSetId + 1 })) ∧
    (∀ s : String, pyStrip s ≠ "" → ∀ n, pyIntOfStr s = some n →
        add_set st sid idx w reps (.pystr s) unit =
          (.ok st.nextSetId,
           { st with
              sets := st.sets ++
                [⟨st.nextSetId, sid, idx, w, reps, some n, unit⟩],
              nextSetId := st.nextSetId + 1 })) ∧
    (∀ s : String, pyStrip s ≠ "" → pyIntOfStr s = none →
        add_set st sid idx w reps (.pystr s) unit =
          (.error .invalidInt, st)) ∧
    (∀ n : Int,
        add_set st sid idx w reps (.pyint n) unit =
          (.ok st.nextSetId,
           { st with
              sets := st.sets ++
                [⟨st.nextSetId, sid, idx, w, reps, some n, unit⟩],
              nextSetId := st.nextSetId + 1 })) := by
  refine ⟨?_, ?_, ?_, ?_⟩
  · rintro rir (rfl | ⟨s, rfl, hblank⟩)
    · simp only [add_set, coerce_rir, hs, if_true]
    · simp only [add_set, coerce_rir, if_pos hblank, hs, if_true]
  · intro s hblank n hn
    simp only [add_set, coerce_rir, if_neg hblank, hn, hs, if_true]
  · intro s hblank hn
    simp only [add_set, coerce_rir, if_neg hblank, hn]
  · intro n
    simp only [add_set, coerce_rir,
      if_neg (pyStrip_intRepr_ne_empty n), hs, if_true]

/-- Witness for C10 at concrete inputs. -/
theorem add_set_rir_spec_witness :
    add_set stW 1 1 ⟨100, 1⟩ 8 .pynone "lbs" =
      (.ok 1, { stW with
        sets := stW.sets ++ [⟨1, 1, 1, ⟨100, 1⟩, 8, none, "lbs"⟩],
        nextSetId := 2 }) ∧
    add_set stW 1 1 ⟨100, 1⟩ 8 (.pystr " ") "lbs" =
      (.ok 1, { stW with
        sets := stW.sets ++ [⟨1, 1, 1, ⟨100, 1⟩, 8, none, "lbs"⟩],
        nextSetId := 2 }) ∧
    add_set stW 1 1 ⟨100, 1⟩ 8 (.pystr "2") "lbs" =
      (.ok 1, { stW with
        sets := stW.sets ++ [⟨1, 1, 1, ⟨100, 1⟩, 8, some 2, "lbs"⟩],
        nextSetId := 2 }) :=
  ⟨(add_set_rir_spec stW 1 1 ⟨100, 1⟩ 8 "lbs" (by decide)).1 .pynone
      (Or.inl rfl),
   (add_set_rir_spec stW 1 1 ⟨100, 1⟩ 8 "lbs" (by decide)).1 (.pystr " ")
      (Or.inr ⟨" ", rfl, by decide⟩),
   (add_set_rir_spec stW 1 1 ⟨100, 1⟩ 8 "lbs" (by decide)).2.1 "2"
      (by decide) 2 (by decide)⟩

/-! ## Duplicate names (claim C2) -/

/-- A store with two exercises, for the duplicate-name scenarios. -/
def stC2 : Store :=
  ⟨[⟨1, "Bench", "Chest", "", "", ""⟩, ⟨2, "Row", "Back", "", "", ""⟩],
   [], [], 3, 1, 1⟩

/-- Counterexample to C2 as stated: renaming exercise 2 ("Row") to the
existing name "Bench" violates the UNIQUE constraint, but
`update_exercise` has no try/except, so the raw `sqlite3.IntegrityError`
propagates instead of the distinguishable duplicate-name `ValueError`
that `add_exercise` raises; the table is unchanged. -/
theorem update_exercise_duplicate_not_duplicateName :
    (update_exercise stC2 2 "Bench" "Back" "" "" "").1 =
        .error .integrityError ∧
    (update_exercise stC2 2 "Bench" "Back" "" "" "").1 ≠
        .error .duplicateName ∧
    (update_exercise stC2 2 "Bench" "Back" "" "" "").2 = stC2 := by
  refine ⟨by decide, by decide, by decide⟩

/-- **C2 (amended).** A duplicate insert via `add_exercise` (name equal,
case-sensitively, to a stored trimmed name) fails with the distinguishable
`duplicateName` error and leaves the store — in particular the exercise
count — unchanged.  A rename via `update_exercise` onto a *different*
row's name fails with the raw `integrityError` (it is **not** converted to
`duplicateName`), and also leaves the store unchanged. -/
theorem duplicate_name_spec (st : Store) (name bp eqp nts sub : String) :
    ((∃ e ∈ st.exercises, e.name = pyStrip name) →
        add_exercise st name bp eqp nts sub = (.error .duplicateName, st) ∧
        (add_exercise st name bp eqp nts sub).2.exercises.length =
          st.exercises.length) ∧
    (∀ id_ : Nat, (∃ e ∈ st.exercises, e.id = id_) →
        (∃ e ∈ st.exercises, e.id ≠ id_ ∧ e.name = pyStrip name) →
        update_exercise st id_ name bp eqp nts sub =
          (.error .integrityError, st) ∧
        (update_exercise st id_ name bp eqp nts sub).2.exercises.length =
          st.exercises.length) := by
  constructor
  · intro hdup
    have hb : st.exercises.any (fun e => e.name == pyStrip name) = true := by
      rw [List.any_eq_true]
      obtain ⟨e, he, hname⟩ := hdup
      exact ⟨e, he, beq_iff_eq.mpr hname⟩
    rw [add_exercise, if_pos hb]
    exact ⟨rfl, rfl⟩
  · intro id_ hex hdup
    have hb1 : st.exercises.any (fun e => e.id == id_) = true := by
      rw [List.any_eq_true]
      obtain ⟨e, he, hid⟩ := hex
      exact ⟨e, he, beq_iff_eq.mpr hid⟩
    have hb2 : st.exercises.any
        (fun e => e.id != id_ && e.name == pyStrip name) = true := by
      rw [List.any_eq_true]
      obtain ⟨e, he, hid, hname⟩ := hdup
      exact ⟨e, he, by
        rw [Bool.and_eq_true, bne_iff_ne, beq_iff_eq]
        exact ⟨hid, hname⟩⟩
    rw [update_exercise, if_pos hb1, if_pos hb2]
    exact ⟨rfl, rfl⟩

/-- Witness for the amended C2 at concrete inputs. -/
theorem duplicate_name_spec_witness :
    (add_exercise stC2 "Bench" "Chest" "" "" "" =
        (.error .duplicateName, stC2) ∧
      (add_exercise stC2 "Bench" "Chest" "" "" "").2.exercises.length =
        stC2.exercises.length) ∧
    (update_exercise stC2 2 "Bench" "Back" "" "" "" =
        (.error .integrityError, stC2) ∧
      (update_exercise stC2 2 "Bench" "Back" "" "" "").2.exercises.length =
        stC2.exercises.length) :=
  ⟨(duplicate_name_spec stC2 "Bench" "Chest" "" "" "").1 (by decide),
   (duplicate_name_spec stC2 "Bench" "Back" "" "" "").2 2 (by decide)
      (by decide)⟩

/-! ## Most recent set (claim C6) -/

/-- `a` is no later than `b` in the `(date DESC, set_index DESC)` order. -/
def rowLex (a b : JoinRow) : Prop :=
  a.date < b.date ∨ (a.date = b.date ∧ a.set_index ≤ b.set_index)

theorem rowLex_refl (a : JoinRow) : rowLex a a :=
  Or.inr ⟨rfl, le_refl _⟩

theorem rowLex_trans {a b c : JoinRow} (h1 : rowLex a b) (h2 : rowLex b c) :
    rowLex a c := by
  rcases h1 with h1 | ⟨h1, h1i⟩ <;> rcases h2 with h2 | ⟨h2, h2i⟩
  · exact Or.inl (h1.trans h2)
  · exact Or.inl (h2 ▸ h1)
  · exact Or.inl (h1 ▸ h2)
  · exact Or.inr ⟨h1.trans h2, h1i.trans h2i⟩

theorem rowAfter_eq_true {a b : JoinRow} (h : rowAfter a b = true) :
    rowLex a b := by
  rw [rowAfter, Bool.or_eq_true, Bool.and_eq_true,
    decide_eq_true_iff, decide_eq_true_iff, decide_eq_true_iff] at h
  rcases h with h | ⟨h1, h2⟩
  · exact Or.inl h
  · exact Or.inr ⟨h1, le_of_lt h2⟩

theorem rowAfter_eq_false {a b : JoinRow} (h : rowAfter a b = false) :
    rowLex b a := by
  rw [rowAfter, Bool.or_eq_false_iff, Bool.and_eq_false_iff] at h
  obtain ⟨h1, h2⟩ := h
  rw [decide_eq_false_iff_not] at h1
  rcases lt_or_eq_of_le (not_lt.mp h1) with hlt | heq
  · exact Or.inl hlt
  · rcases h2 with h2 | h2
    · rw [decide_eq_false_iff_not] at h2
      exact absurd heq.symm h2
    · rw [decide_eq_false_iff_not] at h2
      exact Or.inr ⟨heq, not_lt.mp h2⟩

theorem foldl_pick_spec (l : List JoinRow) : ∀ b : JoinRow,
    ((l.foldl (fun b x => if rowAfter b x then x else b) b) = b ∨
      (l.foldl (fun b x => if rowAfter b x then x else b) b) ∈ l) ∧
    rowLex b (l.foldl (fun b x => if rowAfter b x then x else b) b) ∧
    ∀ x ∈ l, rowLex x (l.foldl (fun b x => if rowAfter b x then x else b) b) := by
  induction l with
  | nil =>
      intro b
      exact ⟨Or.inl rfl, rowLex_refl b, by simp⟩
  | cons a rest ih =>
      intro b
      rw [List.foldl_cons]
      obtain ⟨hmem, hacc, hall⟩ := ih (if rowAfter b a then a else b)
      have hba : rowLex b (if rowAfter b a then a else b) := by
        by_cases hfa : rowAfter b a = true
        · rw [if_pos hfa]; exact rowAfter_eq_true hfa
        · rw [if_neg hfa]; exact rowLex_refl b
      have haa : rowLex a (if rowAfter b a then a else b) := by
        by_cases hfa : rowAfter b a = true
        · rw [if_pos hfa]; exact rowLex_refl a
        · rw [if_neg hfa]
          exact rowAfter_eq_false (Bool.eq_false_iff.mpr hfa)
      refine ⟨?_, rowLex_trans hba hacc, ?_⟩
      · rcases hmem with heq | hmem
        · rw [heq]
          by_cases hfa : rowAfter b a = true
          · rw [if_pos hfa]
            exact Or.inr (List.mem_cons_self a rest)
          · rw [if_neg hfa]
            exact Or.inl rfl
        · exact Or.inr (List.mem_cons_of_mem a hmem)
      · intro x hx
        rcases List.mem_cons.mp hx with rfl | hx
        · exact rowLex_trans haa hacc
        · exact hall x hx

theorem pickLast_mem_max {l : List JoinRow} {r : JoinRow}
    (h : pickLast l = some r) : r ∈ l ∧ ∀ x ∈ l, rowLex x r := by
  cases l with
  | nil => cases h
  | cons a rest =>
      unfold pickLast at h
      injection h with h
      obtain ⟨hmem, hacc, hall⟩ := foldl_pick_spec rest a
      subst h
      constructor
      · rcases hmem with heq | hmem
        · rw [heq]
          exact List.mem_cons_self a rest
        · exact List.mem_cons_of_mem a hmem
      · intro x hx
        rcases List.mem_cons.mp hx with rfl | hx
        · exact hacc
        · exact hall x hx

/-- **C6.** When the exercise has sets, `get_last_set_for_exercise`
returns the `(weight, reps, rir, unit)` of a joined row whose session date
is maximal over all the exercise's sets, and whose set index is maximal
among the rows tying on that date ("most recent session by date, then
highest set index"); when the exercise has no sets at all (empty join),
it returns the no-data tuple of nulls. -/
theorem get_last_set_spec (st : Store) (eid : Nat) :
    (lastJoin st eid = [] →
        get_last_set_for_exercise st eid = (none, none, none, none)) ∧
    (lastJoin st eid ≠ [] →
        ∃ r ∈ lastJoin st eid,
          get_last_set_for_exercise st eid =
            (some r.weight, some r.reps, r.rir, some r.unit) ∧
          (∀ x ∈ lastJoin st eid, x.date ≤ r.date) ∧
          (∀ x ∈ lastJoin st eid,
              x.date = r.date → x.set_index ≤ r.set_index)) := by
  constructor
  · intro h
    unfold get_last_set_for_exercise
    rw [h]
    rfl
  · intro h
    rcases hp : pickLast (lastJoin st eid) with _ | r
    · rcases hl : lastJoin st eid with _ | ⟨a, rest⟩
      · exact absurd hl h
      · rw [hl] at hp
        exact absurd hp (by unfold pickLast; simp)
    · obtain ⟨hmem, hall⟩ := pickLast_mem_max hp
      refine ⟨r, hmem, ?_, ?_, ?_⟩
      · unfold get_last_set_for_exercise
        rw [hp]
      · intro x hx
        rcases hall x hx with h1 | ⟨h1, -⟩
        · exact le_of_lt h1
        · exact le_of_eq h1
      · intro x hx heq
        rcases hall x hx with h1 | ⟨-, h1⟩
        · exact absurd (heq ▸ h1) (lt_irrefl _)
        · exact h1

/-- A store with two sessions and three sets for the witness scenarios:
the most recent session is dated `2024-02-01` and its highest set index
is 2. -/
def stC6 : Store :=
  ⟨[⟨1, "Bench", "Chest", "Barbell", "", ""⟩],
   [⟨1, 1, "2024-01-10", ""⟩, ⟨2, 1, "2024-02-01", ""⟩],
   [⟨1, 1, 1, ⟨100, 1⟩, 8, some 2, "lbs"⟩,
    ⟨2, 2, 1, ⟨105, 1⟩, 6, none, "lbs"⟩,
    ⟨3, 2, 2, ⟨105, 1⟩, 5, none, "lbs"⟩],
   2, 3, 4⟩

/-- Witness for C6 on a concrete store. -/
theorem get_last_set_spec_witness :
    lastJoin stC6 1 ≠ [] ∧
    ∃ r ∈ lastJoin stC6 1,
      get_last_set_for_exercise stC6 1 =
        (some r.weight, some r.reps, r.rir, some r.unit) ∧
      (∀ x ∈ lastJoin stC6 1, x.date ≤ r.date) ∧
      (∀ x ∈ lastJoin stC6 1, x.date = r.date → x.set_index ≤ r.set_index) :=
  ⟨by decide, (get_last_set_spec stC6 1).2 (by decide)⟩

/-! ## Exercise listing (claim C8) -/

theorem maxDate_eq_none_iff (l : List String) : maxDate l = none ↔ l = [] := by
  cases l with
  | nil => simp [maxDate]
  | cons a rest =>
      simp only [maxDate]
      constructor
      · intro h
        rcases hm : maxDate rest with _ | m <;> rw [hm] at h <;> cases h
      · intro h
        cases h

theorem maxDate_mem_max (l : List String) :
    ∀ d, maxDate l = some d → d ∈ l ∧ ∀ x ∈ l, x ≤ d := by
  induction l with
  | nil =>
      intro d h
      cases h
  | cons a rest ih =>
      intro d h
      unfold maxDate at h
      rcases hm : maxDate rest with _ | m <;> rw [hm] at h <;>
        injection h with h
      · have hrest : rest = [] := (maxDate_eq_none_iff rest).mp hm
        subst h
        subst hrest
        exact ⟨List.mem_cons_self _ _, by simp⟩
      · obtain ⟨hmem, hall⟩ := ih m hm
        subst h
        by_cases hlt : m < a
        · rw [if_pos hlt]
          refine ⟨List.mem_cons_self _ _, ?_⟩
          intro x hx
          rcases List.mem_cons.mp hx with rfl | hx
          · exact le_refl x
          · exact (hall x hx).trans (le_of_lt hlt)
        · rw [if_neg hlt]
          refine ⟨List.mem_cons_of_mem _ hmem, ?_⟩
          intro x hx
          rcases List.mem_cons.mp hx with rfl | hx
          · exact not_lt.mp hlt
          · exact hall x hx

/-- **C8.** `get_exercises` returns exactly the exercise rows (a
permutation of the table), sorted by body part then name compared
case-insensitively, and each row is paired with its derived last-session
date: `none` exactly when the exercise has no sessions, and otherwise the
maximum date over the exercise's sessions (`some d` with `d` the date of
one of its sessions and an upper bound of all of them) — so a freshly
added exercise lists with no last-session date, and with sessions present
the listed date is the latest session date. -/
theorem get_exercises_spec (st : Store) :
    ((get_exercises st).map Prod.fst).Perm st.exercises ∧
    List.Sorted exKeyLe ((get_exercises st).map Prod.fst) ∧
    ∀ p ∈ get_exercises st,
      (p.2 = none ↔ ∀ s ∈ st.sessions, s.exercise_id ≠ p.1.id) ∧
      (∀ d, p.2 = some d →
        (∃ s ∈ st.sessions, s.exercise_id = p.1.id ∧ s.date = d) ∧
        ∀ s ∈ st.sessions, s.exercise_id = p.1.id → s.date ≤ d) := by
  have hfst : (get_exercises st).map Prod.fst =
      List.insertionSort exKeyLe st.exercises := by
    unfold get_exercises
    rw [List.map_map]
    exact List.map_id _
  refine ⟨?_, ?_, ?_⟩
  · rw [hfst]
    exact List.perm_insertionSort exKeyLe st.exercises
  · rw [hfst]
    exact List.sorted_insertionSort exKeyLe st.exercises
  · intro p hp
    obtain ⟨e, -, rfl⟩ := List.mem_map.mp hp
    constructor
    · rw [maxDate_eq_none_iff, List.map_eq_nil_iff, List.filter_eq_nil_iff]
      constructor
      · intro h s hs heq
        exact h s hs (by rw [beq_iff_eq]; exact heq)
      · intro h s hs hbeq
        exact h s hs (beq_iff_eq.mp hbeq)
    · intro d hd
      obtain ⟨hmem, hall⟩ := maxDate_mem_max _ d hd
      constructor
      · obtain ⟨s, hs, hdate⟩ := List.mem_map.mp hmem
        obtain ⟨hs', hfilt⟩ := List.mem_filter.mp hs
        exact ⟨s, hs', beq_iff_eq.mp hfilt, hdate⟩
      · intro s hs heq
        exact hall s.date (List.mem_map.mpr
          ⟨s, List.mem_filter.mpr ⟨hs, beq_iff_eq.mpr heq⟩, rfl⟩)

/-- Witness for C8 on a concrete store. -/
theorem get_exercises_spec_witness :
    ((get_exercises stC6).map Prod.fst).Perm stC6.exercises ∧
    List.Sorted exKeyLe ((get_exercises stC6).map Prod.fst) ∧
    ∀ p ∈ get_exercises stC6,
      (p.2 = none ↔ ∀ s ∈ stC6.sessions, s.exercise_id ≠ p.1.id) ∧
      (∀ d, p.2 = some d →
        (∃ s ∈ stC6.sessions, s.exercise_id = p.1.id ∧ s.date = d) ∧
        ∀ s ∈ stC6.sessions, s.exercise_id = p.1.id → s.date ≤ d) :=
  get_exercises_spec stC6

/-! ## Cascade deletion and referential integrity (claim C5) -/

theorem contains_iff_mem {l : List Nat} {a : Nat} :
    l.contains a = true ↔ a ∈ l :=
  List.elem_iff

theorem sessions_filter_deleted (st : Store) (h : wf st = true) (eid : Nat) :
    (delete_exercise st eid).sessions.filter
      (fun s => s.exercise_id == eid) = [] := by
  rw [List.filter_eq_nil_iff]
  intro s hs hbeq
  rw [beq_iff_eq] at hbeq
  unfold delete_exercise at hs
  by_cases hex : st.exercises.any (fun e => e.id == eid) = true
  · rw [if_pos hex] at hs
    have hmem := (List.mem_filter.mp hs).2
    rw [bne_iff_ne] at hmem
    exact hmem hbeq
  · rw [if_neg hex] at hs
    obtain ⟨e, he, heid⟩ := ((wf_iff st).mp h).1 s hs
    exact hex (List.any_eq_true.mpr
      ⟨e, he, beq_iff_eq.mpr (heid.trans hbeq)⟩)

theorem wf_delete_exercise (st : Store) (h : wf st = true) (eid : Nat) :
    wf (delete_exercise st eid) = true := by
  rw [wf_iff] at h ⊢
  obtain ⟨h1, h2⟩ := h
  unfold delete_exercise
  by_cases hex : st.exercises.any (fun e => e.id == eid) = true
  · rw [if_pos hex]
    constructor
    · intro s hs
      obtain ⟨hs1, hs2⟩ := List.mem_filter.mp hs
      obtain ⟨e, he, heid⟩ := h1 s hs1
      refine ⟨e, List.mem_filter.mpr ⟨he, ?_⟩, heid⟩
      rw [bne_iff_ne] at hs2 ⊢
      intro heq
      exact hs2 (heid ▸ heq)
    · intro t ht
      obtain ⟨ht1, ht2⟩ := List.mem_filter.mp ht
      obtain ⟨s, hs, hsid⟩ := h2 t ht1
      refine ⟨s, List.mem_filter.mpr ⟨hs, ?_⟩, hsid⟩
      rw [bne_iff_ne]
      intro heq
      rw [Bool.not_eq_true'] at ht2
      have hdead : t.session_id ∈
          (st.sessions.filter (fun s => s.exercise_id == eid)).map
            SessionRow.id :=
        List.mem_map.mpr
          ⟨s, List.mem_filter.mpr ⟨hs, beq_iff_eq.mpr heq⟩, hsid⟩
      rw [← contains_iff_mem] at hdead
      rw [hdead] at ht2
      cases ht2
  · rw [if_neg hex]
    exact ⟨h1, h2⟩

theorem wf_delete_session (st : Store) (h : wf st = true) (sid : Nat) :
    wf (delete_session st sid) = true := by
  rw [wf_iff] at h ⊢
  obtain ⟨h1, h2⟩ := h
  unfold delete_session
  by_cases hex : st.sessions.any (fun s => s.id == sid) = true
  · rw [if_pos hex]
    constructor
    · intro s hs
      exact h1 s (List.mem_filter.mp hs).1
    · intro t ht
      obtain ⟨ht1, ht2⟩ := List.mem_filter.mp ht
      obtain ⟨s, hs, hsid⟩ := h2 t ht1
      refine ⟨s, List.mem_filter.mpr ⟨hs, ?_⟩, hsid⟩
      rw [bne_iff_ne] at ht2 ⊢
      intro heq
      exact ht2 (hsid ▸ heq)
  · rw [if_neg hex]
    exact ⟨h1, h2⟩

theorem wf_add_exercise (st : Store) (h : wf st = true)
    (name bp eqp nts sub : String) :
    wf (add_exercise st name bp eqp nts sub).2 = true := by
  rw [wf_iff] at h ⊢
  obtain ⟨h1, h2⟩ := h
  unfold add_exercise
  split
  · exact ⟨h1, h2⟩
  · constructor
    · intro s hs
      obtain ⟨e, he, heid⟩ := h1 s hs
      exact ⟨e, List.mem_append.mpr (Or.inl he), heid⟩
    · exact h2

theorem wf_update_exercise (st : Store) (h : wf st = true) (id_ : Nat)
    (name bp eqp nts sub : String) :
    wf (update_exercise st id_ name bp eqp nts sub).2 = true := by
  rw [wf_iff] at h ⊢
  obtain ⟨h1, h2⟩ := h
  unfold update_exercise
  split
  · split
    · exact ⟨h1, h2⟩
    · constructor
      · intro s hs
        obtain ⟨e, he, heid⟩ := h1 s hs
        refine ⟨if e.id == id_ then
            { e with
                name := pyStrip name, body_part := pyStrip bp,
                equipment := pyStrip eqp, notes := pyStrip nts,
                subgroup := pyStrip sub }
          else e, List.mem_map.mpr ⟨e, he, rfl⟩, ?_⟩
        by_cases hb : (e.id == id_) = true
        · rw [if_pos hb]
          exact heid
        · rw [if_neg hb]
          exact heid
      · exact h2
  · exact ⟨h1, h2⟩

theorem wf_add_session (st : Store) (h : wf st = true) (eid : Nat)
    (d n : String) :
    wf (add_session st eid d n).2 = true := by
  rw [wf_iff] at h ⊢
  obtain ⟨h1, h2⟩ := h
  unfold add_session
  by_cases hex : st.exercises.any (fun e => e.id == eid) = true
  · rw [if_pos hex]
    constructor
    · intro s hs
      rcases List.mem_append.mp hs with hs | hs
      · exact h1 s hs
      · obtain ⟨e, he, heid⟩ := List.any_eq_true.mp hex
        rcases List.mem_singleton.mp hs with rfl
        exact ⟨e, he, beq_iff_eq.mp heid⟩
    · intro t ht
      obtain ⟨s, hs, hsid⟩ := h2 t ht
      exact ⟨s, List.mem_append.mpr (Or.inl hs), hsid⟩
  · rw [if_neg hex]
    exact ⟨h1, h2⟩

theorem wf_add_set (st : Store) (h : wf st = true) (sid : Nat) (idx : Int)
    (w : PyFloat) (reps : Int) (rir : RirArg) (unit : String) :
    wf (add_set st sid idx w reps rir unit).2 = true := by
  rw [wf_iff] at h ⊢
  obtain ⟨h1, h2⟩ := h
  unfold add_set
  split
  · exact ⟨h1, h2⟩
  · by_cases hex : st.sessions.any (fun s => s.id == sid) = true
    · rw [if_pos hex]
      constructor
      · exact h1
      · intro t ht
        rcases List.mem_append.mp ht with ht | ht
        · exact h2 t ht
        · obtain ⟨s, hs, hsid⟩ := List.any_eq_true.mp hex
          rcases List.mem_singleton.mp ht with rfl
          exact ⟨s, hs, beq_iff_eq.mp hsid⟩
    · rw [if_neg hex]
      exact ⟨h1, h2⟩

/-- **C5.** Cascade closure and referential integrity: after
`delete_exercise`, `get_sessions_for_exercise` of the deleted exercise is
empty and no surviving set row references any session of the deleted
exercise; after `delete_session`, no surviving set row references the
deleted session; and every store operation — both deletions and all four
writes — preserves referential integrity (`wf`), so no session or set is
ever orphaned by any operation. -/
theorem cascade_delete_spec (st : Store) (h : wf st = true) (eid sid : Nat) :
    get_sessions_for_exercise (delete_exercise st eid) eid = [] ∧
    (∀ t ∈ (delete_exercise st eid).sets, ∀ s ∈ st.sessions,
        s.exercise_id = eid → t.session_id ≠ s.id) ∧
    (∀ t ∈ (delete_session st sid).sets, t.session_id ≠ sid) ∧
    wf (delete_exercise st eid) = true ∧
    wf (delete_session st sid) = true ∧
    (∀ name bp eqp nts sub,
        wf (add_exercise st name bp eqp nts sub).2 = true) ∧
    (∀ id_ name bp eqp nts sub,
        wf (update_exercise st id_ name bp eqp nts sub).2 = true) ∧
    (∀ eid2 d n, wf (add_session st eid2 d n).2 = true) ∧
    (∀ sid2 idx w reps rir unit,
        wf (add_set st sid2 idx w reps rir unit).2 = true) := by
  refine ⟨?_, ?_, ?_, wf_delete_exercise st h eid, wf_delete_session st h sid,
    fun name bp eqp nts sub => wf_add_exercise st h name bp eqp nts sub,
    fun id_ name bp eqp nts sub =>
      wf_update_exercise st h id_ name bp eqp nts sub,
    fun eid2 d n => wf_add_session st h eid2 d n,
    fun sid2 idx w reps rir unit =>
      wf_add_set st h sid2 idx w reps rir unit⟩
  · unfold get_sessions_for_exercise
    rw [sessions_filter_deleted st h eid]
    rfl
  · intro t ht s hs hsid heq
    unfold delete_exercise at ht
    by_cases hex : st.exercises.any (fun e => e.id == eid) = true
    · rw [if_pos hex] at ht
      obtain ⟨-, ht2⟩ := List.mem_filter.mp ht
      rw [Bool.not_eq_true'] at ht2
      have hdead : t.session_id ∈
          (st.sessions.filter (fun s => s.exercise_id == eid)).map
            SessionRow.id :=
        List.mem_map.mpr
          ⟨s, List.mem_filter.mpr ⟨hs, beq_iff_eq.mpr hsid⟩, heq.symm⟩
      rw [← contains_iff_mem] at hdead
      rw [hdead] at ht2
      cases ht2
    · obtain ⟨e, he, heid⟩ := ((wf_iff st).mp h).1 s hs
      exact hex (List.any_eq_true.mpr
        ⟨e, he, beq_iff_eq.mpr (heid.trans hsid)⟩)
  · intro t ht heq
    unfold delete_session at ht
    by_cases hex : st.sessions.any (fun s => s.id == sid) = true
    · rw [if_pos hex] at ht
      obtain ⟨-, ht2⟩ := List.mem_filter.mp ht
      rw [bne_iff_ne] at ht2
      exact ht2 heq
    · rw [if_neg hex] at ht
      obtain ⟨s, hs, hsid⟩ := ((wf_iff st).mp h).2 t ht
      exact hex (List.any_eq_true.mpr
        ⟨s, hs, beq_iff_eq.mpr (hsid.trans heq)⟩)

/-- Witness for C5 on a concrete store (deleting exercise 1 and session 1
of `stC6`, and re-checking integrity for every operation). -/
theorem cascade_delete_spec_witness :
    get_sessions_for_exercise (delete_exercise stC6 1) 1 = [] ∧
    (∀ t ∈ (delete_exercise stC6 1).sets, ∀ s ∈ stC6.sessions,
        s.exercise_id = 1 → t.session_id ≠ s.id) ∧
    (∀ t ∈ (delete_session stC6 1).sets, t.session_id ≠ 1) ∧
    wf (delete_exercise stC6 1) = true ∧
    wf (delete_session stC6 1) = true ∧
    (∀ name bp eqp nts sub,
        wf (add_exercise stC6 name bp eqp nts sub).2 = true) ∧
    (∀ id_ name bp eqp nts sub,
        wf (update_exercise stC6 id_ name bp eqp nts sub).2 = true) ∧
    (∀ eid2 d n, wf (add_session stC6 eid2 d n).2 = true) ∧
    (∀ sid2 idx w reps rir unit,
        wf (add_set stC6 sid2 idx w reps rir unit).2 = true) :=
  cascade_delete_spec stC6 (by decide) 1 1

/-! ## Saving a session (claim C1) -/

/-- The persisted content of a set row, without its AUTOINCREMENT id. -/
def setProj (t : SetRow) : Nat × Int × PyFloat × Int × Option Int × String :=
  (t.session_id, t.set_index, t.weight, t.reps, t.rir, t.unit)

/-- The set row a buffered set should produce under session `sid`. -/
def bufProj (sid : Nat) (b : BufSet) :
    Nat × Int × PyFloat × Int × Option Int × String :=
  (sid, Int.ofNat b.idx, b.weight, b.reps, b.rir, b.unit)

theorem coerce_rirArgOf (r : Option Int) : coerce_rir (rirArgOf r) = .ok r := by
  cases r with
  | none => rfl
  | some n =>
      simp only [rirArgOf, coerce_rir,
        if_neg (pyStrip_intRepr_ne_empty n)]

theorem add_set_ok (st : Store) (sid : Nat) (idx : Int) (w : PyFloat)
    (reps : Int) (r : Option Int) (unit : String)
    (hs : st.sessions.any (fun s => s.id == sid) = true) :
    add_set st sid idx w reps (rirArgOf r) unit =
      (.ok st.nextSetId,
       { st with
          sets := st.sets ++ [⟨st.nextSetId, sid, idx, w, reps, r, unit⟩],
          nextSetId := st.nextSetId + 1 }) := by
  unfold add_set
  rw [coerce_rirArgOf]
  simp only [hs, if_true]

theorem add_session_ok (st : Store) (eid : Nat) (d n : String)
    (hex : st.exercises.any (fun e => e.id == eid) = true) :
    add_session st eid d n =
      (.ok st.nextSessionId,
       { st with
          sessions := st.sessions ++ [⟨st.nextSessionId, eid, d, pyStrip n⟩],
          nextSessionId := st.nextSessionId + 1 }) := by
  unfold add_session
  rw [if_pos hex]

/-- The committed store after one successful buffered-set insert. -/
def addSetStore (st : Store) (sid : Nat) (b : BufSet) : Store :=
  { st with
      sets := st.sets ++
        [⟨st.nextSetId, sid, Int.ofNat b.idx, b.weight, b.reps, b.rir,
          b.unit⟩],
      nextSetId := st.nextSetId + 1 }

theorem save_sets_cons (st : Store) (sid : Nat) (b : BufSet)
    (rest : List BufSet) (k : Nat) (failAt : Option Nat)
    (hf : failAt ≠ some k)
    (hs : st.sessions.any (fun s => s.id == sid) = true) :
    save_sets st sid (b :: rest) k failAt =
      save_sets (addSetStore st sid b) sid rest (k + 1) failAt := by
  rw [save_sets, if_neg hf, add_set_ok st sid _ _ _ _ _ hs]
  rfl

theorem addSetStore_sessions (st : Store) (sid : Nat) (b : BufSet) :
    (addSetStore st sid b).sessions = st.sessions := rfl

theorem addSetStore_sets_proj (st : Store) (sid : Nat) (b : BufSet) :
    (addSetStore st sid b).sets.map setProj =
      st.sets.map setProj ++ [bufProj sid b] := by
  simp [addSetStore, setProj, bufProj]

theorem save_sets_ok (sid : Nat) (buf : List BufSet) : ∀ (st : Store) (k : Nat),
    st.sessions.any (fun s => s.id == sid) = true →
    (save_sets st sid buf k none).1 = .saved ∧
    (save_sets st sid buf k none).2.sessions = st.sessions ∧
    (save_sets st sid buf k none).2.sets.map setProj =
      st.sets.map setProj ++ buf.map (bufProj sid) := by
  induction buf with
  | nil =>
      intro st k hs
      exact ⟨rfl, rfl, by simp [save_sets]⟩
  | cons b rest ih =>
      intro st k hs
      rw [save_sets_cons st sid b rest k none (by simp) hs]
      obtain ⟨ih1, ih2, ih3⟩ := ih (addSetStore st sid b) (k + 1) hs
      refine ⟨ih1, ih2.trans (addSetStore_sessions st sid b), ?_⟩
      rw [ih3, addSetStore_sets_proj]
      simp

theorem save_sets_fail (sid : Nat) (buf : List BufSet) :
    ∀ (st : Store) (k j : Nat), j < buf.length →
    st.sessions.any (fun s => s.id == sid) = true →
    (save_sets st sid buf k (some (k + j))).1 = .failed (k + j) ∧
    (save_sets st sid buf k (some (k + j))).2.sessions = st.sessions ∧
    (save_sets st sid buf k (some (k + j))).2.sets.map setProj =
      st.sets.map setProj ++ (buf.take j).map (bufProj sid) := by
  induction buf with
  | nil =>
      intro st k j hj hs
      exact absurd hj (by simp)
  | cons b rest ih =>
      intro st k j hj hs
      cases j with
      | zero =>
          rw [save_sets, if_pos (by rw [Nat.add_zero])]
          exact ⟨rfl, rfl, by simp⟩
      | succ j' =>
          have harg : k + (j' + 1) = (k + 1) + j' := by omega
          rw [save_sets_cons st sid b rest k (some (k + (j' + 1)))
            (by simp) hs, harg]
          obtain ⟨ih1, ih2, ih3⟩ := ih (addSetStore st sid b) (k + 1) j'
            (Nat.lt_of_succ_lt_succ (by simpa using hj)) hs
          refine ⟨ih1, ih2.trans (addSetStore_sessions st sid b), ?_⟩
          rw [ih3, addSetStore_sets_proj]
          simp

/-- **C1 (amended).**  Saving a session is *not* atomic: each INSERT is
committed individually.  Precisely, for a selected (existing) exercise and
a non-empty pending buffer: when no insert fails, the session row and all
of its set rows are persisted; when the session insert itself fails,
nothing is persisted; but when the `(j+1)`-st set insert fails
(`0 ≤ j < |buf|`), the session row and exactly the first `j` set rows
remain committed — a partial write (a session with fewer than all its
sets) is left in the store, and the failure is surfaced synchronously to
the caller (no silent failure, no retry). -/
theorem save_session_spec (st : Store) (eid : Nat) (d n : String)
    (buf : List BufSet)
    (hex : st.exercises.any (fun e => e.id == eid) = true)
    (hbuf : buf ≠ []) :
    ((save_session st eid d n buf none).1 = .saved ∧
     (save_session st eid d n buf none).2.sessions =
       st.sessions ++ [⟨st.nextSessionId, eid, d, pyStrip n⟩] ∧
     (save_session st eid d n buf none).2.sets.map setProj =
       st.sets.map setProj ++ buf.map (bufProj st.nextSessionId)) ∧
    (save_session st eid d n buf (some 0) = (.failed 0, st)) ∧
    (∀ j, j < buf.length →
       (save_session st eid d n buf (some (j + 1))).1 = .failed (j + 1) ∧
       (save_session st eid d n buf (some (j + 1))).2.sessions =
         st.sessions ++ [⟨st.nextSessionId, eid, d, pyStrip n⟩] ∧
       (save_session st eid d n buf (some (j + 1))).2.sets.map setProj =
         st.sets.map setProj ++
           (buf.take j).map (bufProj st.nextSessionId)) := by
  have hempty : buf.isEmpty ≠ true := fun hi =>
    hbuf (List.isEmpty_iff.mp hi)
  have hs1 : ∀ st1 : Store,
      st1.sessions = st.sessions ++ [⟨st.nextSessionId, eid, d, pyStrip n⟩] →
      st1.sessions.any (fun s => s.id == st.nextSessionId) = true := by
    intro st1 h1
    rw [h1, List.any_eq_true]
    exact ⟨⟨st.nextSessionId, eid, d, pyStrip n⟩,
      List.mem_append.mpr (Or.inr (List.mem_singleton.mpr rfl)), beq_self_eq_true _⟩
  refine ⟨?_, ?_, ?_⟩
  · rw [save_session, if_neg hempty, if_neg (by simp),
      add_session_ok st eid d n hex]
    exact save_sets_ok st.nextSessionId buf _ 1 (hs1 _ rfl)
  · rw [save_session, if_neg hempty, if_pos rfl]
  · intro j hj
    rw [save_session, if_neg hempty, if_neg (by simp),
      add_session_ok st eid d n hex]
    have harg : j + 1 = 1 + j := by omega
    rw [harg]
    exact save_sets_fail st.nextSessionId buf _ 1 j hj (hs1 _ rfl)

/-- Witness for the amended C1 on a concrete store and buffer. -/
theorem save_session_spec_witness :
    ((save_session stW 1 "2024-03-01" "" bufW none).1 = .saved ∧
     (save_session stW 1 "2024-03-01" "" bufW none).2.sessions =
       stW.sessions ++ [⟨stW.nextSessionId, 1, "2024-03-01", pyStrip ""⟩] ∧
     (save_session stW 1 "2024-03-01" "" bufW none).2.sets.map setProj =
       stW.sets.map setProj ++ bufW.map (bufProj stW.nextSessionId)) ∧
    (save_session stW 1 "2024-03-01" "" bufW (some 0) = (.failed 0, stW)) ∧
    (∀ j, j < bufW.length →
       (save_session stW 1 "2024-03-01" "" bufW (some (j + 1))).1 =
         .failed (j + 1) ∧
       (save_session stW 1 "2024-03-01" "" bufW (some (j + 1))).2.sessions =
         stW.sessions ++ [⟨stW.nextSessionId, 1, "2024-03-01", pyStrip ""⟩] ∧
       (save_session stW 1 "2024-03-01" "" bufW (some (j + 1))).2.sets.map
           setProj =
         stW.sets.map setProj ++
           (bufW.take j).map (bufProj stW.nextSessionId)) :=
  save_session_spec stW 1 "2024-03-01" "" bufW (by decide) (by decide)

/-- Counterexample to C1 as stated: with the two-set buffer `bufW`, a
storage failure at the second set insert leaves the freshly inserted
session committed together with only one of its two sets — a partial
write (a session with fewer than all its sets) remains in the store,
because `add_session` and each `add_set` commit separately and
`save_session` performs no rollback. -/
theorem save_session_not_atomic :
    (save_session stW 1 "2024-03-01" "" bufW (some 2)).1 = .failed 2 ∧
    ((save_session stW 1 "2024-03-01" "" bufW (some 2)).2.sessions.filter
        (fun s => s.id == 2)).length = 1 ∧
    ((save_session stW 1 "2024-03-01" "" bufW (some 2)).2.sets.filter
        (fun t => t.session_id == 2)).length = 1 ∧
    bufW.length = 2 := by decide

end CejFIT
